import Mathlib

/-!
Verification of the hostel-management inventory-consumption engine.

This file gives a shallow embedding, in Lean 4, of the domain logic of the
repository `ananda-hostal-api`:

* `src/utils/cronJobs.js` — `getAttendanceCount`, `consumeInventoryForMeal`,
  `checkLowStockItems`;
* `src/controllers/inventoryUsage.controller.js` — `getAttendanceForDate`,
  `recordInventoryUsage`;
* `src/controllers/attendance.controller.js` — `createAttendanceSession`.

Conventions of the embedding:

* JavaScript numbers that hold stock quantities are modelled as `Rat`
  (the code performs exact real arithmetic in spirit: division and
  multiplication with no rounding before comparisons).
* Timestamps are modelled as `Int` milliseconds since the epoch; the civil
  calendar has no daylight-saving jumps, so `setHours(0,0,0,0)` is flooring
  to a multiple of `msPerDay` and `setDate(getDate()-1)` subtracts
  `msPerDay`.
* The MongoDB collections are lists inside a `Store` structure; `findOne`
  becomes `List.find?`, `create` appends, and a `save()` of a fetched
  document overwrites the stored record with the same id.
* Error/notification message strings built by template literals are
  modelled structurally: an inductive type records exactly the data that is
  interpolated into the string.
-/

/-! ## Time arithmetic -/

/-- Milliseconds in one civil day. -/
def msPerDay : Int := 86400000

/-- The civil-day index of a timestamp (floor division; `/` on `Int` is
Euclidean division, which floors for the positive divisor `msPerDay`). -/
def dayOf (t : Int) : Int := t / msPerDay

/-- The JavaScript `new Date(t).setHours(0, 0, 0, 0)`: midnight of the day containing `t`. -/
def startOfDayMs (t : Int) : Int := dayOf t * msPerDay

/-- The JavaScript `new Date(t).setHours(23, 59, 59, 999)`: last millisecond of the day
containing `t`. -/
def endOfDayMs (t : Int) : Int := dayOf t * msPerDay + 86399999

/-- The `markedAt: { $gte: startOfDay, $lte: endOfDay }` range filter used by
every per-day query in the code. -/
def withinDayOf (markedAt t : Int) : Bool :=
  decide (startOfDayMs t ≤ markedAt) && decide (markedAt ≤ endOfDayMs t)

/-- JavaScript weekday names, indexed as by `Date.prototype.getDay`. -/
def dayNames : List String :=
  ["Sunday", "Monday", "Tuesday", "Wednesday", "Thursday", "Friday",
   "Saturday"]

/-- Weekday name of a timestamp (epoch day 0, 1970-01-01, was a Thursday). -/
def dayNameOf (t : Int) : String :=
  (dayNames.getD ((dayOf t + 4) % 7).toNat "Sunday")

/-! ## Data model -/

/-- A document of the `InventoryItem` collection (fields used by the engine). -/
structure InventoryItem where
  id : Nat
  name : String
  unit : String
  currentStock : Rat
  minimumStock : Rat
  lastUpdated : Int
  deriving Repr, DecidableEq

/-- One `{inventoryItemId, quantity}` entry of a meal plan's inventory list.
The schema in `mealplan.model.js` declares only these two fields; the cron
job additionally reads `item.forStudents`, which is therefore `none`
(JavaScript `undefined`) for schema-conformant documents, and the read
`item.forStudents || 10` also turns an explicit `0` into the default. -/
structure PlanItem where
  inventoryItemId : Nat
  quantity : Rat
  forStudents : Option Rat
  deriving Repr, DecidableEq

/-- A document of the `MealPlan` collection (fields used by the engine). -/
structure MealPlan where
  day : String
  breakfastInventory : List PlanItem
  lunchInventory : List PlanItem
  dinnerInventory : List PlanItem
  deriving Repr, DecidableEq

/-- A document of the `AttendanceSession` collection. -/
structure AttendanceSession where
  id : Nat
  sessionType : String
  attendanceRecords : List Nat
  totalStudents : Nat
  presentCount : Nat
  absentCount : Nat
  markedBy : Nat
  markedAt : Int
  notes : String
  isCompleted : Bool
  deriving Repr, DecidableEq

/-- A document of the `AttendanceRecord` collection. -/
structure AttendanceRecord where
  id : Nat
  student : Nat
  status : String
  remarks : String
  deriving Repr, DecidableEq

/-- A document of the `User` collection (fields used by the engine). -/
structure User where
  id : Nat
  role : String
  firstName : String
  lastName : String
  deriving Repr, DecidableEq

/-- One line item of an `InventoryUsage` record. -/
structure UsageLine where
  inventoryItemId : Nat
  recordedQuantity : Rat
  recordedForStudents : Rat
  actualQuantityDeducted : Rat
  deriving Repr, DecidableEq

/-- A document of the `InventoryUsage` collection. -/
structure InventoryUsage where
  date : Int
  mealType : String
  items : List UsageLine
  attendanceCount : Nat
  attendanceSessionId : Option Nat
  recordedBy : Nat
  notes : String
  deriving Repr, DecidableEq

/-- The data interpolated into one error string accumulated by
`consumeInventoryForMeal` (`cronJobs.js`).  `insufficientStock` carries the
item name, the available stock, the required amount, the unit and the
attendance count — exactly the values the template literal prints. -/
inductive ConsumeError where
  | itemNotFound (mealType : String) (itemId : Nat)
  | insufficientStock (mealType name : String) (available required : Rat)
      (unit : String) (attendance : Nat)
  deriving Repr, DecidableEq

/-- The data interpolated into one error string accumulated by
`recordInventoryUsage` (`inventoryUsage.controller.js`). -/
inductive ManualError where
  | missingItemFields
  | badForStudents
  | itemNotFound (itemId : Nat)
  | insufficientStock (name : String) (available required : Rat)
      (unit : String)
  deriving Repr, DecidableEq

/-- The body of a notification message, modelled structurally: each
constructor records the data the corresponding template literal prints. -/
inductive NotifMessage where
  | consumptionErrors (errors : List ConsumeError)
  | lowStock (name : String) (currentStock minimumStock : Rat) (unit : String)
  | attendanceMarked (markerFirstName markerLastName : String)
      (total present absent : Nat)
  | text (s : String)
  deriving Repr, DecidableEq

/-- A document of the `Notification` collection. -/
structure Notification where
  user : Nat
  ntype : String
  title : String
  message : NotifMessage
  read : Bool
  createdAt : Int
  deriving Repr, DecidableEq

/-- The persistent store: one list per MongoDB collection, plus a fresh-id
counter standing for ObjectId generation. -/
structure Store where
  items : List InventoryItem
  mealPlans : List MealPlan
  sessions : List AttendanceSession
  users : List User
  students : List Nat
  attendanceRecords : List AttendanceRecord
  usages : List InventoryUsage
  notifications : List Notification
  nextId : Nat
  deriving Repr, DecidableEq

/-! ## Attendance lookup -/

/-- The `AttendanceSession.findOne({sessionType, markedAt: {$gte, $lte}})`
query issued by `getAttendanceCount`, `getAttendanceForDate` and the
duplicate check of `createAttendanceSession`. -/
def findSession (store : Store) (sessionType : String) (date : Int) :
    Option AttendanceSession :=
  store.sessions.find? fun s =>
    s.sessionType == sessionType && withinDayOf s.markedAt date

/-- The function `getAttendanceCount` (`cronJobs.js`): the present-count of the session of
the given type on the calendar day of `date`, or `none` when no session
exists.  (`attendanceSession.presentCount || 0` returns the count itself
since `presentCount` is a number; `getAttendanceForDate` in
`inventoryUsage.controller.js` is the same query returning
`session.presentCount`.) -/
def getAttendanceCount (store : Store) (sessionType : String) (date : Int) :
    Option Nat :=
  (findSession store sessionType date).map (·.presentCount)

/-! ## Consumption calculator -/

/-- The scaling formula shared by `consumeInventoryForMeal` and
`recordInventoryUsage`:
`(attendanceCount / forStudents) * baseQuantity`. -/
def quantityToConsume (baseQuantity forStudents attendance : Rat) : Rat :=
  attendance / forStudents * baseQuantity

/-- The read `item.forStudents || 10` — JavaScript defaulting of a falsy
(`undefined` or `0`) baseline group size. -/
def effectiveForStudents (f : Option Rat) : Rat :=
  match f with
  | some q => if q = 0 then 10 else q
  | none => 10

/-! ## Inventory ledger helpers -/

/-- The lookup `InventoryItem.findById` — documents are stored with unique ids, the
first match is the document. -/
def findItem (store : Store) (itemId : Nat) : Option InventoryItem :=
  store.items.find? (·.id == itemId)

/-- A fetched document's `save()`: overwrite the stored record that has the
document's id with the document's `currentStock` and `lastUpdated`. -/
def updateItemStock (store : Store) (itemId : Nat) (newStock : Rat)
    (now : Int) : Store :=
  { store with
    items := store.items.map fun it =>
      if it.id == itemId then
        { it with currentStock := newStock, lastUpdated := now }
      else it }

/-! ## Scheduled consumption (`consumeInventoryForMeal`, cronJobs.js) -/

/-- The per-meal inventory list selected by the nested conditional on
`mealType` (any string other than `"breakfast"`/`"lunch"` selects the
dinner list, exactly as the JavaScript conditional chain does). -/
def mealInventoryOf (plan : MealPlan) (mealType : String) : List PlanItem :=
  if mealType == "breakfast" then plan.breakfastInventory
  else if mealType == "lunch" then plan.lunchInventory
  else plan.dinnerInventory

/-- The attendance-source timestamp: `breakfast`/`lunch` shift the date one
calendar day back (`attendanceDate.setDate(attendanceDate.getDate() - 1)`);
`dinner` keeps it. -/
def attendanceDateFor (mealType : String) (date : Int) : Int :=
  if mealType == "breakfast" || mealType == "lunch" then date - msPerDay
  else date

/-- Accumulator state of the per-item loop of `consumeInventoryForMeal`:
the evolving store plus the `errors` and `usageItems` arrays. -/
structure CronLoopState where
  store : Store
  errors : List ConsumeError
  usageItems : List UsageLine
  deriving Repr, DecidableEq

/-- One iteration of the per-item loop of `consumeInventoryForMeal`:
fetch the item, compute the scaled quantity, check stock, then either
record an error or deduct and push a usage line. -/
def processCronItem (mealType : String) (attendanceCount : Nat) (now : Int)
    (st : CronLoopState) (item : PlanItem) : CronLoopState :=
  match findItem st.store item.inventoryItemId with
  | none =>
      { st with
        errors :=
          st.errors ++ [ConsumeError.itemNotFound mealType item.inventoryItemId] }
  | some inventoryItem =>
      let baseQuantity := item.quantity
      let forStudents := effectiveForStudents item.forStudents
      let toConsume :=
        quantityToConsume baseQuantity forStudents (attendanceCount : Rat)
      if inventoryItem.currentStock < toConsume then
        { st with
          errors :=
            st.errors ++
              [ConsumeError.insufficientStock mealType inventoryItem.name
                inventoryItem.currentStock toConsume inventoryItem.unit
                attendanceCount] }
      else
        { store :=
            updateItemStock st.store item.inventoryItemId
              (inventoryItem.currentStock - toConsume) now
          errors := st.errors
          usageItems :=
            st.usageItems ++
              [{ inventoryItemId := inventoryItem.id
                 recordedQuantity := baseQuantity
                 recordedForStudents := forStudents
                 actualQuantityDeducted := toConsume }] }

/-- The notification created per admin when the scheduled run accumulated
errors. -/
def cronErrorNotification (admin : User) (mealType dayName : String)
    (errors : List ConsumeError) (now : Int) : Notification :=
  { user := admin.id
    ntype := "alert"
    title := "Inventory Consumption Error - " ++ mealType ++ " (" ++
      dayName ++ ")"
    message := NotifMessage.consumptionErrors errors
    read := false
    createdAt := now }

/-- The job `consumeInventoryForMeal(mealType, date)` (`cronJobs.js`), as a store
transformer; `now` stands for the wall clock used for `lastUpdated` and
notification timestamps. -/
def consumeInventoryForMeal (store : Store) (mealType : String) (date : Int)
    (now : Int) : Store :=
  let dayName := dayNameOf date
  match store.mealPlans.find? (·.day == dayName) with
  | none => store
  | some mealPlan =>
    let attendanceDate := attendanceDateFor mealType date
    match getAttendanceCount store "evening" attendanceDate with
    | none => store
    | some attendanceCount =>
      if attendanceCount = 0 then store
      else
        let attendanceSession := findSession store "evening" attendanceDate
        let mealInventory := mealInventoryOf mealPlan mealType
        if mealInventory.isEmpty then store
        else
          match store.users.find? (·.role == "admin") with
          | none => store
          | some systemUser =>
            let looped :=
              mealInventory.foldl (processCronItem mealType attendanceCount now)
                { store := store, errors := [], usageItems := [] }
            let afterUsage :=
              if looped.usageItems.isEmpty then looped.store
              else
                { looped.store with
                  usages :=
                    looped.store.usages ++
                      [{ date := date
                         mealType := mealType
                         items := looped.usageItems
                         attendanceCount := attendanceCount
                         attendanceSessionId := attendanceSession.map (·.id)
                         recordedBy := systemUser.id
                         notes := "Automated deduction via cron job" }] }
            if looped.errors.isEmpty then afterUsage
            else
              { afterUsage with
                notifications :=
                  afterUsage.notifications ++
                    (afterUsage.users.filter (·.role == "admin")).map
                      fun admin =>
                        cronErrorNotification admin mealType dayName
                          looped.errors now }

/-! ## Manual recording (`recordInventoryUsage`, inventoryUsage.controller.js) -/

/-- A request-body field holding a date string: missing (falsy), present but
unparseable (`new Date(...)` is `NaN`), or parseable to a timestamp. -/
inductive DateField where
  | absent
  | invalid
  | valid (t : Int)
  deriving Repr, DecidableEq

/-- One entry of the `items` array of a manual recording request; every
field may be missing from the JSON body. -/
structure ManualItemInput where
  inventoryItemId : Option Nat
  recordedQuantity : Option Rat
  recordedForStudents : Option Rat
  deriving Repr, DecidableEq

/-- The request body of `POST /api/inventory-usage` plus the authenticated
user's id. -/
structure ManualRequest where
  date : DateField
  mealType : Option String
  items : Option (List ManualItemInput)
  notes : Option String
  user : Nat
  deriving Repr, DecidableEq

/-- The outcome of `recordInventoryUsage`: each error constructor is one of
the `throw` sites (with its HTTP status), `created` is the 201 response. -/
inductive ManualResult where
  | errMissingFields
  | errInvalidMealType
  | errInvalidDate
  | errAttendanceNotFound
  | errItems (errors : List ManualError)
  | created (usage : InventoryUsage)
  deriving Repr, DecidableEq

/-- Accumulator of the validation loop of `recordInventoryUsage`: the
`processedItems`, `inventoryUpdates` and `errors` arrays.  An entry of
`inventoryUpdates` is the fetched document (with the stock read at
validation time) paired with the quantity to deduct, exactly as the code
keeps the Mongoose document reference. -/
structure ManualLoopState where
  processedItems : List UsageLine
  inventoryUpdates : List (InventoryItem × Rat)
  errors : List ManualError
  deriving Repr, DecidableEq

/-- One iteration of the validation loop of `recordInventoryUsage`.  The
first guard is `!inventoryItemId || recordedQuantity === undefined ||
!recordedForStudents` (so a `recordedForStudents` of `0` is "missing"),
the second is `![1, 10].includes(recordedForStudents)`.  No store mutation
happens here. -/
def processManualItem (store : Store) (attendanceCount : Nat)
    (st : ManualLoopState) (item : ManualItemInput) : ManualLoopState :=
  match item.inventoryItemId, item.recordedQuantity,
      item.recordedForStudents with
  | some itemId, some recordedQuantity, some recordedForStudents =>
    if recordedForStudents = 0 then
      { st with errors := st.errors ++ [ManualError.missingItemFields] }
    else if recordedForStudents = 1 ∨ recordedForStudents = 10 then
      match findItem store itemId with
      | none =>
          { st with errors := st.errors ++ [ManualError.itemNotFound itemId] }
      | some inventoryItem =>
        let actualQuantity :=
          quantityToConsume recordedQuantity recordedForStudents
            (attendanceCount : Rat)
        if inventoryItem.currentStock < actualQuantity then
          { st with
            errors :=
              st.errors ++
                [ManualError.insufficientStock inventoryItem.name
                  inventoryItem.currentStock actualQuantity
                  inventoryItem.unit] }
        else
          { st with
            processedItems :=
              st.processedItems ++
                [{ inventoryItemId := itemId
                   recordedQuantity := recordedQuantity
                   recordedForStudents := recordedForStudents
                   actualQuantityDeducted := actualQuantity }]
            inventoryUpdates :=
              st.inventoryUpdates ++ [(inventoryItem, actualQuantity)] }
    else
      { st with errors := st.errors ++ [ManualError.badForStudents] }
  | _, _, _ =>
      { st with errors := st.errors ++ [ManualError.missingItemFields] }

/-- One iteration of the deduction loop: `update.item.currentStock -=
update.quantityToDeduct; await update.item.save()` — the save writes the
captured document's stock minus the quantity. -/
def applyManualUpdate (now : Int) (store : Store)
    (u : InventoryItem × Rat) : Store :=
  updateItemStock store u.1.id (u.1.currentStock - u.2) now

/-- The whole validation loop of `recordInventoryUsage`: fold
`processManualItem` over the complete `items` array, starting from empty
accumulators.  It reads the store but never writes it. -/
def manualLoop (store : Store) (attendanceCount : Nat)
    (items : List ManualItemInput) : ManualLoopState :=
  items.foldl (processManualItem store attendanceCount)
    { processedItems := [], inventoryUpdates := [], errors := [] }

/-- The handler `recordInventoryUsage` (`inventoryUsage.controller.js`): validate the
request, resolve attendance, collect all per-item errors over the whole
list, and only when none were collected apply the deductions and append
one usage record. -/
def recordInventoryUsage (store : Store) (req : ManualRequest) (now : Int) :
    Store × ManualResult :=
  match req.mealType, req.items with
  | some mealType, some items =>
    if req.date = DateField.absent ∨ items = [] then
      (store, ManualResult.errMissingFields)
    else if mealType = "breakfast" ∨ mealType = "lunch" ∨
        mealType = "dinner" then
      match req.date with
      | DateField.absent => (store, ManualResult.errMissingFields)
      | DateField.invalid => (store, ManualResult.errInvalidDate)
      | DateField.valid t =>
        let usageDate := startOfDayMs t
        let attendanceDate := attendanceDateFor mealType usageDate
        match getAttendanceCount store "evening" attendanceDate with
        | none => (store, ManualResult.errAttendanceNotFound)
        | some attendanceCount =>
          let attendanceSession := findSession store "evening" attendanceDate
          let looped := manualLoop store attendanceCount items
          if looped.errors.isEmpty then
            let deducted :=
              looped.inventoryUpdates.foldl (applyManualUpdate now) store
            let usage : InventoryUsage :=
              { date := usageDate
                mealType := mealType
                items := looped.processedItems
                attendanceCount := attendanceCount
                attendanceSessionId := attendanceSession.map (·.id)
                recordedBy := req.user
                notes := req.notes.getD "" }
            ({ deducted with usages := deducted.usages ++ [usage] },
             ManualResult.created usage)
          else
            (store, ManualResult.errItems looped.errors)
    else
      (store, ManualResult.errInvalidMealType)
  | _, _ => (store, ManualResult.errMissingFields)

/-! ## Low-stock monitor (`checkLowStockItems`, cronJobs.js) -/

/-- The notification inserted for a low item: `"alert"` exactly when the
stock is zero, `"warning"` otherwise. -/
def lowStockNotification (user : User) (item : InventoryItem) (now : Int) :
    Notification :=
  { user := user.id
    ntype := if item.currentStock = 0 then "alert" else "warning"
    title := "Low Stock: " ++ item.name
    message :=
      NotifMessage.lowStock item.name item.currentStock item.minimumStock
        item.unit
    read := false
    createdAt := now }

/-- The filter of the dedup query: same recipient, same title, created
today (`createdAt: {$gte: startOfToday}}`). -/
def lowStockMatch (userId : Nat) (title : String) (now : Int)
    (n : Notification) : Bool :=
  n.user == userId && n.title == title &&
    decide (startOfDayMs now ≤ n.createdAt)

/-- The dedup query `Notification.findOne({user, title, createdAt: {$gte:
startOfToday}})`. -/
def lowStockDedupQuery (notifications : List Notification) (userId : Nat)
    (title : String) (now : Int) : Option Notification :=
  notifications.find? (lowStockMatch userId title now)

/-- The body of the inner (per-recipient) loop of `checkLowStockItems`:
insert a notification unless one with the same user and title was already
created today. -/
def lowStockStep (now : Int) (item : InventoryItem) (s : Store)
    (user : User) : Store :=
  match lowStockDedupQuery s.notifications user.id
      ("Low Stock: " ++ item.name) now with
  | some _ => s
  | none =>
      { s with
        notifications := s.notifications ++ [lowStockNotification user item now] }

/-- The job `checkLowStockItems` (`cronJobs.js`): scan the ledger for items with
`currentStock <= minimumStock` and notify every admin/kitchen user, at most
once per item title per recipient per day. -/
def checkLowStockItems (store : Store) (now : Int) : Store :=
  let lowStockItems :=
    store.items.filter fun it => decide (it.currentStock ≤ it.minimumStock)
  if lowStockItems.isEmpty then store
  else
    let adminUsers :=
      store.users.filter fun u => u.role == "admin" || u.role == "kitchen"
    lowStockItems.foldl
      (fun s item => adminUsers.foldl (lowStockStep now item) s) store

/-! ## Attendance session creation (`createAttendanceSession`,
attendance.controller.js) -/

/-- One entry of the `records` array of a session-creation request. -/
structure RecordInput where
  student : Nat
  status : String
  remarks : Option String
  deriving Repr, DecidableEq

/-- The request body of `POST /api/attendance` plus the authenticated
user document. -/
structure SessionRequest where
  sessionType : Option String
  notes : Option String
  records : Option (List RecordInput)
  date : DateField
  user : User
  deriving Repr, DecidableEq

/-- The outcome of `createAttendanceSession`: each error constructor is one
of the `throw` sites (with its HTTP status), `created` is the 201
response. -/
inductive SessionResult where
  | errMissingFields
  | errInvalidSessionType
  | errInvalidDate
  | errConflict
  | errInvalidStudents (ids : List Nat)
  | created (session : AttendanceSession)
  deriving Repr, DecidableEq

/-- Accumulator of the per-record loop of `createAttendanceSession`: the
evolving store (attendance records are created as the loop runs), the
`invalidStudents` and `attendanceRecordIds` arrays and the two counters. -/
structure RecordsLoopState where
  store : Store
  invalidStudents : List Nat
  attendanceRecordIds : List Nat
  presentCount : Nat
  absentCount : Nat
  deriving Repr, DecidableEq

/-- One iteration of the per-record loop: look the student up; if present,
create an `AttendanceRecord` and bump `presentCount` when the submitted
status is `"present"`, `absentCount` otherwise. -/
def processSessionRecord (st : RecordsLoopState) (record : RecordInput) :
    RecordsLoopState :=
  if st.store.students.contains record.student then
    let newId := st.store.nextId
    let newRecord : AttendanceRecord :=
      { id := newId
        student := record.student
        status := record.status
        remarks := record.remarks.getD "" }
    { store :=
        { st.store with
          attendanceRecords := st.store.attendanceRecords ++ [newRecord]
          nextId := st.store.nextId + 1 }
      invalidStudents := st.invalidStudents
      attendanceRecordIds := st.attendanceRecordIds ++ [newId]
      presentCount :=
        if record.status == "present" then st.presentCount + 1
        else st.presentCount
      absentCount :=
        if record.status == "present" then st.absentCount
        else st.absentCount + 1 }
  else
    { st with invalidStudents := st.invalidStudents ++ [record.student] }

/-- The date-parsing step of `createAttendanceSession`: default to today
when no date was sent, reject an unparseable one, and normalise to the
start of the day (`attendanceDate.setHours(0, 0, 0, 0)`). -/
def resolvedSessionDate (d : DateField) (now : Int) : Option Int :=
  match d with
  | DateField.absent => some (startOfDayMs now)
  | DateField.invalid => none
  | DateField.valid t => some (startOfDayMs t)

/-- The handler `createAttendanceSession` (`attendance.controller.js`): validate, reject
a duplicate (sessionType, calendar day) with 409 before creating anything,
then create the per-student records, the session (with counts computed from
the records), and one info notification per admin/warden other than the
marker. -/
def createAttendanceSession (store : Store) (req : SessionRequest)
    (now : Int) : Store × SessionResult :=
  match req.sessionType, req.records with
  | some sessionType, some records =>
    if sessionType = "morning" ∨ sessionType = "evening" then
      match resolvedSessionDate req.date now with
      | none => (store, SessionResult.errInvalidDate)
      | some attendanceDate =>
        match findSession store sessionType attendanceDate with
        | some _ => (store, SessionResult.errConflict)
        | none =>
          let looped :=
            records.foldl processSessionRecord
              { store := store
                invalidStudents := []
                attendanceRecordIds := []
                presentCount := 0
                absentCount := 0 }
          if looped.invalidStudents.isEmpty then
            let sessId := looped.store.nextId
            let session : AttendanceSession :=
              { id := sessId
                sessionType := sessionType
                attendanceRecords := looped.attendanceRecordIds
                totalStudents := records.length
                presentCount := looped.presentCount
                absentCount := looped.absentCount
                markedBy := req.user.id
                markedAt := attendanceDate
                notes := req.notes.getD ""
                isCompleted := false }
            let withSession :=
              { looped.store with
                sessions := looped.store.sessions ++ [session]
                nextId := sessId + 1 }
            let staffToNotify :=
              withSession.users.filter fun u =>
                (u.role == "admin" || u.role == "warden") &&
                  u.id != req.user.id
            let sessionTime :=
              if sessionType = "morning" then "Morning" else "Evening"
            let final :=
              { withSession with
                notifications :=
                  withSession.notifications ++
                    staffToNotify.map fun u =>
                      { user := u.id
                        ntype := "info"
                        title := sessionTime ++ " Attendance Marked"
                        message :=
                          NotifMessage.attendanceMarked req.user.firstName
                            req.user.lastName records.length
                            looped.presentCount looped.absentCount
                        read := false
                        createdAt := now } }
            (final, SessionResult.created session)
          else
            (looped.store,
             SessionResult.errInvalidStudents looped.invalidStudents)
    else
      (store, SessionResult.errInvalidSessionType)
  | _, _ => (store, SessionResult.errMissingFields)

/-! ## Helper lemmas -/

lemma msPerDay_pos : (0 : Int) < msPerDay := by norm_num [msPerDay]

lemma dayOf_sub_msPerDay (t : Int) : dayOf (t - msPerDay) = dayOf t - 1 := by
  have h : t - msPerDay = t + (-1) * msPerDay := by ring
  rw [dayOf, h, Int.add_mul_ediv_right _ _ (by norm_num [msPerDay])]
  rfl

lemma startOfDayMs_le_self (t : Int) : startOfDayMs t ≤ t :=
  Int.ediv_mul_le t (by norm_num [msPerDay])

lemma dayOf_startOfDayMs (t : Int) : dayOf (startOfDayMs t) = dayOf t := by
  rw [startOfDayMs, dayOf, dayOf, Int.mul_ediv_cancel _ (by norm_num [msPerDay])]

lemma startOfDayMs_eq_of_dayOf_eq {a b : Int} (h : dayOf a = dayOf b) :
    startOfDayMs a = startOfDayMs b := by
  rw [startOfDayMs, startOfDayMs, h]

/-! ## C2 — attendance-to-meal alignment -/

/-- C2: for breakfast and lunch the attendance-source timestamp (used by
both `consumeInventoryForMeal`, which passes the raw date, and
`recordInventoryUsage`, which passes the date normalised to start of day)
lies on the previous calendar day; for dinner it lies on the same calendar
day; and any session returned by the shared `findSession` query is an
evening session whose `markedAt` lies within
`[00:00:00.000, 23:59:59.999]` of the queried day. -/
theorem attendance_source_alignment (mealType : String) (t : Int) :
    ((mealType = "breakfast" ∨ mealType = "lunch") →
      dayOf (attendanceDateFor mealType t) = dayOf t - 1 ∧
      dayOf (attendanceDateFor mealType (startOfDayMs t)) = dayOf t - 1) ∧
    (mealType = "dinner" →
      dayOf (attendanceDateFor mealType t) = dayOf t ∧
      dayOf (attendanceDateFor mealType (startOfDayMs t)) = dayOf t) ∧
    (∀ (store : Store) (d : Int) (s : AttendanceSession),
      findSession store "evening" d = some s →
        s.sessionType = "evening" ∧
        startOfDayMs d ≤ s.markedAt ∧
        s.markedAt ≤ startOfDayMs d + 86399999) := by
  refine ⟨?_, ?_, ?_⟩
  · rintro (h | h) <;> subst h <;>
      simp [attendanceDateFor, dayOf_sub_msPerDay, dayOf_startOfDayMs]
  · intro h; subst h
    simp [attendanceDateFor, dayOf_startOfDayMs]
  · intro store d s hfind
    have hp := List.find?_some hfind
    simp only [Bool.and_eq_true, beq_iff_eq, withinDayOf,
      decide_eq_true_eq] at hp
    exact ⟨hp.1, hp.2.1, by
      have := hp.2.2
      simpa [endOfDayMs, startOfDayMs] using this⟩

/-- Witness for C2 at concrete inputs. -/
theorem attendance_source_alignment_witness :
    (("breakfast" : String) = "breakfast" ∨ ("breakfast" : String) = "lunch") ∧
    dayOf (attendanceDateFor "breakfast" 86400005) = dayOf 86400005 - 1 ∧
    dayOf (attendanceDateFor "dinner" 86400005) = dayOf 86400005 :=
  ⟨Or.inl rfl,
   ((attendance_source_alignment "breakfast" 86400005).1 (Or.inl rfl)).1,
   ((attendance_source_alignment "dinner" 86400005).2.1 rfl).1⟩

/-! ## C7 — consumption calculator -/

/-- C7: `quantityToConsume` is the formula
`(attendance / baselineGroupSize) * baseQuantity`; it is linear in
attendance (doubling attendance doubles the result), returns exactly the
base quantity when attendance equals the baseline group size, and is
non-negative on non-negative inputs.  No rounding is involved: the result
is an exact rational. -/
theorem quantityToConsume_spec (baseQuantity forStudents attendance : Rat)
    (hg : 0 < forStudents) :
    quantityToConsume baseQuantity forStudents attendance =
      attendance / forStudents * baseQuantity ∧
    quantityToConsume baseQuantity forStudents (2 * attendance) =
      2 * quantityToConsume baseQuantity forStudents attendance ∧
    quantityToConsume baseQuantity forStudents forStudents = baseQuantity ∧
    (0 ≤ baseQuantity → 0 ≤ attendance →
      0 ≤ quantityToConsume baseQuantity forStudents attendance) := by
  have hg0 : forStudents ≠ 0 := ne_of_gt hg
  refine ⟨rfl, ?_, ?_, ?_⟩
  · unfold quantityToConsume; field_simp; ring
  · unfold quantityToConsume; field_simp
  · intro hb ha
    unfold quantityToConsume
    exact mul_nonneg (div_nonneg ha hg.le) hb

/-- Witness for C7: the spec's own example, base 5 per 10 students with
attendance 25 yields 12.5. -/
theorem quantityToConsume_spec_witness :
    (0 : Rat) < 10 ∧
    quantityToConsume 5 10 (2 * 25) = 2 * quantityToConsume 5 10 25 ∧
    quantityToConsume 5 10 25 = 25 / 2 :=
  ⟨by norm_num,
   (quantityToConsume_spec 5 10 25 (by norm_num)).2.1,
   by norm_num [quantityToConsume]⟩

/-! ## C3 — skip on missing or zero attendance -/

/-- C3: when the attendance lookup for the resolved session and date
returns `none` or a present count of `0`, a scheduled run of
`consumeInventoryForMeal` leaves the entire store unchanged — no debit, no
usage record, no notification. -/
theorem cron_skip_on_no_attendance (store : Store) (mealType : String)
    (date now : Int)
    (h : getAttendanceCount store "evening" (attendanceDateFor mealType date)
          = none ∨
        getAttendanceCount store "evening" (attendanceDateFor mealType date)
          = some 0) :
    consumeInventoryForMeal store mealType date now = store := by
  rcases h with h | h <;> simp only [consumeInventoryForMeal, h] <;>
    cases List.find? (fun x => x.day == dayNameOf date) store.mealPlans <;>
      simp

/-- Witness for C3: an empty store has no attendance session, so the run is
a no-op on it. -/
theorem cron_skip_on_no_attendance_witness :
    consumeInventoryForMeal
      { items := [], mealPlans := [], sessions := [], users := []
        students := [], attendanceRecords := [], usages := []
        notifications := [], nextId := 0 } "breakfast" 0 0 =
      { items := [], mealPlans := [], sessions := [], users := []
        students := [], attendanceRecords := [], usages := []
        notifications := [], nextId := 0 } :=
  cron_skip_on_no_attendance _ _ _ _ (Or.inl rfl)

/-! ## C10 — skip when no admin user exists -/

/-- C10: when the store has no user with role `"admin"`, a scheduled run of
`consumeInventoryForMeal` leaves the store unchanged: it terminates at the
system-user lookup (or earlier) before processing any plan item, so there
are zero debits, zero usage records and zero notifications. -/
theorem cron_skip_on_no_admin (store : Store) (mealType : String)
    (date now : Int) (h : ∀ u ∈ store.users, u.role ≠ "admin") :
    consumeInventoryForMeal store mealType date now = store := by
  have hfind : store.users.find? (·.role == "admin") = none := by
    rw [List.find?_eq_none]
    intro u hu
    simpa using h u hu
  simp only [consumeInventoryForMeal, hfind]
  cases List.find? (fun x => x.day == dayNameOf date) store.mealPlans with
  | none => rfl
  | some plan =>
    cases getAttendanceCount store "evening"
        (attendanceDateFor mealType date) with
    | none => rfl
    | some n =>
      by_cases hn : n = 0
      · simp [hn]
      · by_cases hinv : (mealInventoryOf plan mealType).isEmpty
        · simp [hn, hinv]
        · simp [hn, hinv]

/-- Witness for C10: a store with a Thursday meal plan, a non-zero evening
attendance session and stocked inventory, but whose only user is a warden —
the run changes nothing. -/
theorem cron_skip_on_no_admin_witness :
    consumeInventoryForMeal
      { items := [{ id := 1, name := "Rice", unit := "kg",
                    currentStock := 100, minimumStock := 5, lastUpdated := 0 }]
        mealPlans := [{ day := "Thursday", breakfastInventory := []
                        lunchInventory := []
                        dinnerInventory :=
                          [{ inventoryItemId := 1, quantity := 5
                             forStudents := none }] }]
        sessions := [{ id := 2, sessionType := "evening"
                       attendanceRecords := [], totalStudents := 10
                       presentCount := 8, absentCount := 2, markedBy := 3
                       markedAt := 0, notes := "", isCompleted := false }]
        users := [{ id := 4, role := "warden", firstName := "A"
                    lastName := "B" }]
        students := [], attendanceRecords := [], usages := []
        notifications := [], nextId := 10 } "dinner" 0 0 =
      { items := [{ id := 1, name := "Rice", unit := "kg",
                    currentStock := 100, minimumStock := 5, lastUpdated := 0 }]
        mealPlans := [{ day := "Thursday", breakfastInventory := []
                        lunchInventory := []
                        dinnerInventory :=
                          [{ inventoryItemId := 1, quantity := 5
                             forStudents := none }] }]
        sessions := [{ id := 2, sessionType := "evening"
                       attendanceRecords := [], totalStudents := 10
                       presentCount := 8, absentCount := 2, markedBy := 3
                       markedAt := 0, notes := "", isCompleted := false }]
        users := [{ id := 4, role := "warden", firstName := "A"
                    lastName := "B" }]
        students := [], attendanceRecords := [], usages := []
        notifications := [], nextId := 10 } :=
  cron_skip_on_no_admin _ _ _ _ (by
    intro u hu
    rw [List.mem_singleton] at hu
    subst hu
    decide)

/-! ## C1 — debit safety -/

lemma findItem_updateItemStock_self (store : Store) (itemId : Nat)
    (v : Rat) (now : Int) :
    findItem (updateItemStock store itemId v now) itemId =
      (findItem store itemId).map
        (fun it => { it with currentStock := v, lastUpdated := now }) := by
  unfold findItem updateItemStock
  rw [List.find?_map]
  have hpred : ((fun it : InventoryItem => it.id == itemId) ∘
      fun it =>
        if it.id == itemId then
          { it with currentStock := v, lastUpdated := now }
        else it) = fun it : InventoryItem => it.id == itemId := by
    funext it
    by_cases h : it.id = itemId <;> simp [Function.comp, h]
  rw [hpred]
  cases hf : store.items.find? (fun it => it.id == itemId) with
  | none => rfl
  | some a =>
    have ha := List.find?_some hf
    simp only [Option.map_some', if_pos ha]

/-- C1: the debit step of both consumption paths is safe.
(1) Scheduled path, sufficient stock: `processCronItem` stores exactly
`oldStock - amount`, which is non-negative, and accumulates no error.
(2) Scheduled path, insufficient stock (`amount > oldStock`): the store is
untouched, no usage line is added, and the accumulated error carries the
item's name, the available amount and the required amount.
(3) Manual path, insufficient stock: the validation step schedules no
update and accumulates the same structured error.
(4) Manual path deduction (`applyManualUpdate`, reached only for items
whose check passed): the item's stored stock becomes exactly the captured
old stock minus the amount, which is non-negative. -/
theorem debit_safety :
    (∀ (mealType : String) (attendanceCount : Nat) (now : Int)
        (st : CronLoopState) (item : PlanItem)
        (inventoryItem : InventoryItem),
      findItem st.store item.inventoryItemId = some inventoryItem →
      (¬ inventoryItem.currentStock <
            quantityToConsume item.quantity
              (effectiveForStudents item.forStudents) (attendanceCount : Rat) →
        findItem (processCronItem mealType attendanceCount now st item).store
            item.inventoryItemId =
          some { inventoryItem with
                  currentStock :=
                    inventoryItem.currentStock -
                      quantityToConsume item.quantity
                        (effectiveForStudents item.forStudents)
                        (attendanceCount : Rat)
                  lastUpdated := now } ∧
        0 ≤ inventoryItem.currentStock -
              quantityToConsume item.quantity
                (effectiveForStudents item.forStudents)
                (attendanceCount : Rat) ∧
        (processCronItem mealType attendanceCount now st item).errors =
          st.errors) ∧
      (inventoryItem.currentStock <
            quantityToConsume item.quantity
              (effectiveForStudents item.forStudents) (attendanceCount : Rat) →
        (processCronItem mealType attendanceCount now st item).store =
          st.store ∧
        (processCronItem mealType attendanceCount now st item).usageItems =
          st.usageItems ∧
        (processCronItem mealType attendanceCount now st item).errors =
          st.errors ++
            [ConsumeError.insufficientStock mealType inventoryItem.name
              inventoryItem.currentStock
              (quantityToConsume item.quantity
                (effectiveForStudents item.forStudents)
                (attendanceCount : Rat))
              inventoryItem.unit attendanceCount])) ∧
    (∀ (store : Store) (attendanceCount : Nat) (st : ManualLoopState)
        (itemId : Nat) (recordedQuantity recordedForStudents : Rat)
        (inventoryItem : InventoryItem),
      recordedForStudents ≠ 0 →
      (recordedForStudents = 1 ∨ recordedForStudents = 10) →
      findItem store itemId = some inventoryItem →
      inventoryItem.currentStock <
          quantityToConsume recordedQuantity recordedForStudents
            (attendanceCount : Rat) →
      processManualItem store attendanceCount st
          { inventoryItemId := some itemId
            recordedQuantity := some recordedQuantity
            recordedForStudents := some recordedForStudents } =
        { st with
          errors :=
            st.errors ++
              [ManualError.insufficientStock inventoryItem.name
                inventoryItem.currentStock
                (quantityToConsume recordedQuantity recordedForStudents
                  (attendanceCount : Rat))
                inventoryItem.unit] }) ∧
    (∀ (s : Store) (now : Int) (u : InventoryItem × Rat),
      ¬ u.1.currentStock < u.2 →
      findItem (applyManualUpdate now s u) u.1.id =
        (findItem s u.1.id).map
          (fun it => { it with
                        currentStock := u.1.currentStock - u.2
                        lastUpdated := now }) ∧
      0 ≤ u.1.currentStock - u.2) := by
  refine ⟨?_, ?_, ?_⟩
  · intro mealType attendanceCount now st item inventoryItem hfound
    constructor
    · intro hge
      simp only [processCronItem, hfound, if_neg hge]
      refine ⟨?_, ?_, trivial⟩
      · rw [findItem_updateItemStock_self, hfound]
        rfl
      · exact sub_nonneg.mpr (not_lt.mp hge)
    · intro hlt
      simp only [processCronItem, hfound, if_pos hlt]
      exact ⟨trivial, trivial, trivial⟩
  · intro store attendanceCount st itemId recordedQuantity
      recordedForStudents inventoryItem h0 h110 hfound hlt
    simp only [processManualItem, if_neg h0, if_pos h110, hfound,
      if_pos hlt]
  · intro s now u hge
    constructor
    · exact findItem_updateItemStock_self s u.1.id (u.1.currentStock - u.2) now
    · exact sub_nonneg.mpr (not_lt.mp hge)

/-- Concrete data for the C1 witness: the spec's own example — "Rice" has
stock 10 and the run requires 12.5. -/
def riceItem : InventoryItem :=
  { id := 1, name := "Rice", unit := "kg", currentStock := 10
    minimumStock := 2, lastUpdated := 0 }

def riceState : CronLoopState :=
  { store := { items := [riceItem], mealPlans := [], sessions := []
               users := [], students := [], attendanceRecords := []
               usages := [], notifications := [], nextId := 5 }
    errors := [], usageItems := [] }

def ricePlanItem : PlanItem :=
  { inventoryItemId := 1, quantity := 5, forStudents := none }

/-- Witness for C1: with stock 10 and a required amount of 12.5 the debit
is refused, the store is untouched, and the error names "Rice", the
available 10 and the required 12.5. -/
theorem debit_safety_witness :
    findItem riceState.store ricePlanItem.inventoryItemId = some riceItem ∧
    riceItem.currentStock <
      quantityToConsume ricePlanItem.quantity
        (effectiveForStudents ricePlanItem.forStudents) ((25 : Nat) : Rat) ∧
    (processCronItem "breakfast" 25 7 riceState ricePlanItem).store =
      riceState.store ∧
    (processCronItem "breakfast" 25 7 riceState ricePlanItem).errors =
      [ConsumeError.insufficientStock "breakfast" "Rice" 10 (25 / 2) "kg"
        25] := by
  have hfound : findItem riceState.store ricePlanItem.inventoryItemId =
      some riceItem := by rfl
  have hlt : riceItem.currentStock <
      quantityToConsume ricePlanItem.quantity
        (effectiveForStudents ricePlanItem.forStudents) ((25 : Nat) : Rat) := by
    norm_num [riceItem, ricePlanItem, quantityToConsume, effectiveForStudents]
  have h :=
    ((debit_safety.1 "breakfast" 25 7 riceState ricePlanItem riceItem
        hfound).2 hlt)
  refine ⟨hfound, hlt, h.1, ?_⟩
  rw [h.2.2]
  norm_num [riceState, riceItem, ricePlanItem, quantityToConsume,
    effectiveForStudents]

/-! ## C8 — duplicate attendance session is a 409 conflict -/

/-- C8: an otherwise valid session-creation request for a (sessionType,
calendar day) pair that already has a session is rejected with the 409
Conflict result, and the store — in particular the existing session — is
completely unchanged: the duplicate check runs before anything is
created. -/
theorem duplicate_session_conflict (store : Store) (req : SessionRequest)
    (now : Int) (sessionType : String) (records : List RecordInput)
    (attendanceDate : Int) (s : AttendanceSession)
    (hst : req.sessionType = some sessionType)
    (hrecs : req.records = some records)
    (hvalid : sessionType = "morning" ∨ sessionType = "evening")
    (hdate : resolvedSessionDate req.date now = some attendanceDate)
    (hdup : findSession store sessionType attendanceDate = some s) :
    createAttendanceSession store req now =
      (store, SessionResult.errConflict) := by
  simp only [createAttendanceSession, hst, hrecs, if_pos hvalid, hdate, hdup]

/-- Concrete data for the C8 witness: a store already holding an evening
session on day 0. -/
def existingEveningSession : AttendanceSession :=
  { id := 7, sessionType := "evening", attendanceRecords := []
    totalStudents := 3, presentCount := 2, absentCount := 1, markedBy := 1
    markedAt := 0, notes := "", isCompleted := false }

def dupSessionStore : Store :=
  { items := [], mealPlans := [], sessions := [existingEveningSession]
    users := [], students := [], attendanceRecords := [], usages := []
    notifications := [], nextId := 8 }

def dupSessionRequest : SessionRequest :=
  { sessionType := some "evening", notes := none, records := some []
    date := DateField.valid 5
    user := { id := 1, role := "warden", firstName := "A", lastName := "B" } }

/-- Witness for C8: re-submitting an evening session for day 0 yields the
conflict result and the identical store. -/
theorem duplicate_session_conflict_witness :
    createAttendanceSession dupSessionStore dupSessionRequest 99 =
      (dupSessionStore, SessionResult.errConflict) :=
  duplicate_session_conflict dupSessionStore dupSessionRequest 99 "evening"
    [] 0 existingEveningSession rfl rfl (Or.inr rfl) (by decide) (by decide)

/-! ## C9 — session counts are computed from the records list -/

lemma processSessionRecord_students (st : RecordsLoopState)
    (r : RecordInput) :
    (processSessionRecord st r).store.students = st.store.students := by
  unfold processSessionRecord
  split <;> rfl

lemma sessionRecords_invalid_mono (records : List RecordInput) :
    ∀ st : RecordsLoopState,
      ∃ l, (records.foldl processSessionRecord st).invalidStudents =
        st.invalidStudents ++ l := by
  induction records with
  | nil => intro st; exact ⟨[], by simp⟩
  | cons r rs ih =>
    intro st
    obtain ⟨l, hl⟩ := ih (processSessionRecord st r)
    rw [List.foldl_cons, hl]
    unfold processSessionRecord
    split
    · exact ⟨l, rfl⟩
    · exact ⟨r.student :: l, by simp⟩

lemma sessionRecords_invalid_nil_all_valid (records : List RecordInput) :
    ∀ st : RecordsLoopState,
      (records.foldl processSessionRecord st).invalidStudents = [] →
      ∀ r ∈ records, st.store.students.contains r.student := by
  induction records with
  | nil => intro st _ r hr; exact absurd hr (List.not_mem_nil r)
  | cons r rs ih =>
    intro st hnil q hq
    rw [List.foldl_cons] at hnil
    by_cases hc : st.store.students.contains r.student
    · rcases List.mem_cons.mp hq with hq | hq
      · subst hq; exact hc
      · have := ih (processSessionRecord st r) hnil q hq
        rwa [processSessionRecord_students] at this
    · exfalso
      obtain ⟨l, hl⟩ :=
        sessionRecords_invalid_mono rs (processSessionRecord st r)
      rw [hl] at hnil
      have hinv : (processSessionRecord st r).invalidStudents =
          st.invalidStudents ++ [r.student] := by
        unfold processSessionRecord
        rw [if_neg hc]
      rw [hinv] at hnil
      simp at hnil

lemma sessionRecords_fold_counts (records : List RecordInput) :
    ∀ st : RecordsLoopState,
      (∀ r ∈ records, st.store.students.contains r.student) →
      (records.foldl processSessionRecord st).presentCount =
        st.presentCount +
          records.countP (fun r => r.status == "present") ∧
      (records.foldl processSessionRecord st).absentCount =
        st.absentCount +
          records.countP (fun r => !(r.status == "present")) ∧
      (records.foldl processSessionRecord st).presentCount +
          (records.foldl processSessionRecord st).absentCount =
        st.presentCount + st.absentCount + records.length := by
  induction records with
  | nil => intro st _; simp
  | cons r rs ih =>
    intro st hall
    have hc : st.store.students.contains r.student :=
      hall r (List.mem_cons_self r rs)
    have hall2 : ∀ q ∈ rs,
        (processSessionRecord st r).store.students.contains q.student := by
      intro q hq
      rw [processSessionRecord_students]
      exact hall q (List.mem_cons_of_mem r hq)
    obtain ⟨hp, ha, hs⟩ := ih (processSessionRecord st r) hall2
    have hstep : (processSessionRecord st r).presentCount =
        (if r.status == "present" then st.presentCount + 1
         else st.presentCount) ∧
        (processSessionRecord st r).absentCount =
        (if r.status == "present" then st.absentCount
         else st.absentCount + 1) := by
      unfold processSessionRecord
      rw [if_pos hc]
      exact ⟨rfl, rfl⟩
    rw [List.foldl_cons]
    refine ⟨?_, ?_, ?_⟩
    · rw [hp, hstep.1, List.countP_cons]
      by_cases hpr : r.status == "present" <;> simp [hpr] <;> omega
    · rw [ha, hstep.2, List.countP_cons]
      by_cases hpr : r.status == "present" <;> simp [hpr] <;> omega
    · rw [hs, hstep.1, hstep.2, List.length_cons]
      by_cases hpr : r.status == "present" <;> simp [hpr] <;> omega

/-- C9: every session successfully created by `createAttendanceSession`
has `presentCount` equal to the number of submitted records with status
`"present"`, `absentCount` equal to the number of all other records, and
`presentCount + absentCount = totalStudents = records.length` — the counts
are computed from the records list at creation time. -/
theorem session_counts_from_records (store store2 : Store)
    (req : SessionRequest) (now : Int) (records : List RecordInput)
    (sess : AttendanceSession) (hrecs : req.records = some records)
    (hres : createAttendanceSession store req now =
      (store2, SessionResult.created sess)) :
    sess.presentCount = records.countP (fun r => r.status == "present") ∧
    sess.absentCount = records.countP (fun r => !(r.status == "present")) ∧
    sess.presentCount + sess.absentCount = sess.totalStudents ∧
    sess.totalStudents = records.length := by
  unfold createAttendanceSession at hres
  rw [hrecs] at hres
  cases hsty : req.sessionType with
  | none => rw [hsty] at hres; exact absurd (congrArg Prod.snd hres) (by simp)
  | some sessionType =>
    rw [hsty] at hres
    simp only at hres
    split at hres
    case isTrue hvalid =>
      cases hdate : resolvedSessionDate req.date now with
      | none =>
        rw [hdate] at hres
        exact absurd (congrArg Prod.snd hres) (by simp)
      | some attendanceDate =>
        rw [hdate] at hres
        simp only at hres
        cases hdup : findSession store sessionType attendanceDate with
        | some s =>
          rw [hdup] at hres
          exact absurd (congrArg Prod.snd hres) (by simp)
        | none =>
          rw [hdup] at hres
          simp only at hres
          split at hres
          case isTrue hempty =>
            have hsess := congrArg Prod.snd hres
            simp only at hsess
            have hsess2 := hsess.symm
            injection hsess2 with hsess3
            subst hsess3
            have hnil : (records.foldl processSessionRecord
                { store := store, invalidStudents := []
                  attendanceRecordIds := [], presentCount := 0
                  absentCount := 0 }).invalidStudents = [] :=
              List.isEmpty_iff.mp hempty
            have hall := sessionRecords_invalid_nil_all_valid records _ hnil
            obtain ⟨hp, ha, hs⟩ := sessionRecords_fold_counts records _ hall
            simp only at hp ha hs
            exact ⟨by simpa using hp, by simpa using ha,
              by simpa using hs, rfl⟩
          case isFalse =>
            exact absurd (congrArg Prod.snd hres) (by simp)
    case isFalse =>
      exact absurd (congrArg Prod.snd hres) (by simp)

/-- Concrete data for the C9 witness. -/
def c9Records : List RecordInput :=
  [{ student := 1, status := "present", remarks := none },
   { student := 2, status := "absent", remarks := none },
   { student := 3, status := "present", remarks := none }]

def c9Store : Store :=
  { items := [], mealPlans := [], sessions := [], users := []
    students := [1, 2, 3], attendanceRecords := [], usages := []
    notifications := [], nextId := 100 }

def c9Request : SessionRequest :=
  { sessionType := some "morning", notes := none, records := some c9Records
    date := DateField.valid 0
    user := { id := 9, role := "warden", firstName := "W", lastName := "X" } }

def c9Session : AttendanceSession :=
  { id := 103, sessionType := "morning", attendanceRecords := [100, 101, 102]
    totalStudents := 3, presentCount := 2, absentCount := 1, markedBy := 9
    markedAt := 0, notes := "", isCompleted := false }

/-- Witness for C9: three submitted records (two present, one absent)
produce a session with counts 2/1/3. -/
theorem session_counts_from_records_witness :
    createAttendanceSession c9Store c9Request 0 =
      ((createAttendanceSession c9Store c9Request 0).1,
        SessionResult.created c9Session) ∧
    c9Session.presentCount + c9Session.absentCount = c9Session.totalStudents :=
  ⟨by decide,
   (session_counts_from_records c9Store
      (createAttendanceSession c9Store c9Request 0).1 c9Request 0 c9Records
      c9Session rfl (by decide)).2.2.1⟩

/-! ## C5 — no partial application on the manual path -/

lemma applyManualUpdates_frame (now : Int) :
    ∀ (updates : List (InventoryItem × Rat)) (s : Store),
      (updates.foldl (applyManualUpdate now) s).mealPlans = s.mealPlans ∧
      (updates.foldl (applyManualUpdate now) s).sessions = s.sessions ∧
      (updates.foldl (applyManualUpdate now) s).users = s.users ∧
      (updates.foldl (applyManualUpdate now) s).students = s.students ∧
      (updates.foldl (applyManualUpdate now) s).attendanceRecords =
        s.attendanceRecords ∧
      (updates.foldl (applyManualUpdate now) s).usages = s.usages ∧
      (updates.foldl (applyManualUpdate now) s).notifications =
        s.notifications ∧
      (updates.foldl (applyManualUpdate now) s).nextId = s.nextId := by
  intro updates
  induction updates with
  | nil => intro s; exact ⟨rfl, rfl, rfl, rfl, rfl, rfl, rfl, rfl⟩
  | cons u us ih =>
    intro s
    rw [List.foldl_cons]
    exact ih (applyManualUpdate now s u)

/-- C5: on the manual recording path, either the request fails and the
store is byte-for-byte unchanged (so no debit and no usage record — in
particular every `errItems` failure carries the non-empty list of all
collected errors), or the request succeeds, in which case the collected
error list was empty, every scheduled debit is applied, and exactly one
usage record is appended; the store is only ever changed by a successful
request. -/
theorem manual_no_partial_application (store : Store) (req : ManualRequest)
    (now : Int) :
    (∀ errs, (recordInventoryUsage store req now).2 =
        ManualResult.errItems errs →
      errs ≠ [] ∧ (recordInventoryUsage store req now).1 = store) ∧
    ((recordInventoryUsage store req now).1 ≠ store →
      ∃ u, (recordInventoryUsage store req now).2 =
        ManualResult.created u) ∧
    (∀ (mealType : String) (items : List ManualItemInput) (t : Int)
        (attendanceCount : Nat),
      req.mealType = some mealType → req.items = some items →
      req.date = DateField.valid t →
      getAttendanceCount store "evening"
          (attendanceDateFor mealType (startOfDayMs t)) =
        some attendanceCount →
      (mealType = "breakfast" ∨ mealType = "lunch" ∨ mealType = "dinner") →
      items ≠ [] →
      ((manualLoop store attendanceCount items).errors ≠ [] →
        recordInventoryUsage store req now =
          (store,
           ManualResult.errItems
             (manualLoop store attendanceCount items).errors)) ∧
      ((manualLoop store attendanceCount items).errors = [] →
        ∃ u, recordInventoryUsage store req now =
            ({ (manualLoop store attendanceCount
                  items).inventoryUpdates.foldl (applyManualUpdate now)
                    store with
               usages := store.usages ++ [u] },
             ManualResult.created u) ∧
          u.items = (manualLoop store attendanceCount items).processedItems ∧
          u.mealType = mealType ∧ u.date = startOfDayMs t ∧
          u.attendanceCount = attendanceCount ∧
          u.attendanceSessionId =
            (findSession store "evening"
              (attendanceDateFor mealType (startOfDayMs t))).map (·.id))) := by
  obtain ⟨rdate, rmt, rit, rnotes, ruser⟩ := req
  cases rmt with
  | none => simp [recordInventoryUsage]
  | some mealType0 =>
    cases rit with
    | none => simp [recordInventoryUsage]
    | some items0 =>
      by_cases hmiss : rdate = DateField.absent ∨ items0 = []
      · rcases hmiss with h | h
        · subst h; simp [recordInventoryUsage]
        · subst h
          simp [recordInventoryUsage]
          exact fun a b c d h1 h2 h3 h4 h5 => h2
      · push_neg at hmiss
        by_cases hmt : mealType0 = "breakfast" ∨ mealType0 = "lunch" ∨
            mealType0 = "dinner"
        · cases rdate with
          | absent => exact absurd rfl hmiss.1
          | invalid =>
            simp [recordInventoryUsage, hmiss.2, hmt]
          | valid t0 =>
            cases hatt0 : getAttendanceCount store "evening"
                (attendanceDateFor mealType0 (startOfDayMs t0)) with
            | none =>
              simp [recordInventoryUsage, hmiss.2, hmt, hatt0]
              intro a b c d h1 h2 h3 h4 h5
              subst h1; subst h3
              rw [hatt0] at h4
              exact Option.noConfusion h4
            | some n =>
              by_cases herr : (manualLoop store n items0).errors = []
              · have heq : recordInventoryUsage store
                    { date := DateField.valid t0, mealType := some mealType0
                      items := some items0, notes := rnotes, user := ruser }
                    now =
                    ({ (manualLoop store n
                          items0).inventoryUpdates.foldl
                            (applyManualUpdate now) store with
                       usages :=
                        ((manualLoop store n
                            items0).inventoryUpdates.foldl
                              (applyManualUpdate now) store).usages ++
                          [{ date := startOfDayMs t0
                             mealType := mealType0
                             items :=
                               (manualLoop store n items0).processedItems
                             attendanceCount := n
                             attendanceSessionId :=
                               (findSession store "evening"
                                 (attendanceDateFor mealType0
                                   (startOfDayMs t0))).map (·.id)
                             recordedBy := ruser
                             notes := rnotes.getD "" }] },
                     ManualResult.created
                       { date := startOfDayMs t0
                         mealType := mealType0
                         items := (manualLoop store n items0).processedItems
                         attendanceCount := n
                         attendanceSessionId :=
                           (findSession store "evening"
                             (attendanceDateFor mealType0
                               (startOfDayMs t0))).map (·.id)
                         recordedBy := ruser
                         notes := rnotes.getD "" }) := by
                  simp [recordInventoryUsage, hmiss.2, hmt, hatt0, herr]
                refine ⟨?_, ?_, ?_⟩
                · intro errs habs
                  rw [heq] at habs
                  exact absurd habs (by simp)
                · intro _
                  exact ⟨_, congrArg Prod.snd heq⟩
                · intro mealType items t attendanceCount h1 h2 h3 h4 h5 h6
                  simp only [Option.some.injEq] at h1 h2
                  subst h1; subst h2
                  simp only [DateField.valid.injEq] at h3
                  subst h3
                  rw [hatt0] at h4
                  simp only [Option.some.injEq] at h4
                  subst h4
                  constructor
                  · intro habs
                    exact absurd herr habs
                  · intro _
                    refine ⟨{ date := startOfDayMs t0
                              mealType := mealType0
                              items :=
                                (manualLoop store n items0).processedItems
                              attendanceCount := n
                              attendanceSessionId :=
                                (findSession store "evening"
                                  (attendanceDateFor mealType0
                                    (startOfDayMs t0))).map (·.id)
                              recordedBy := ruser
                              notes := rnotes.getD "" },
                            ?_, rfl, rfl, rfl, rfl, rfl⟩
                    rw [heq]
                    have husg :
                        ((manualLoop store n
                            items0).inventoryUpdates.foldl
                              (applyManualUpdate now) store).usages =
                          store.usages :=
                      (applyManualUpdates_frame now
                        (manualLoop store n items0).inventoryUpdates
                        store).2.2.2.2.2.1
                    rw [husg]
              · have hne : ¬ (manualLoop store n items0).errors.isEmpty
                    = true := by
                  simpa [List.isEmpty_iff] using herr
                have heq : recordInventoryUsage store
                    { date := DateField.valid t0, mealType := some mealType0
                      items := some items0, notes := rnotes, user := ruser }
                    now =
                    (store,
                     ManualResult.errItems
                       (manualLoop store n items0).errors) := by
                  simp [recordInventoryUsage, hmiss.2, hmt, hatt0, hne]
                refine ⟨?_, ?_, ?_⟩
                · intro errs habs
                  rw [heq] at habs
                  simp only [ManualResult.errItems.injEq] at habs
                  subst habs
                  exact ⟨herr, congrArg Prod.fst heq⟩
                · intro habs
                  exact absurd (congrArg Prod.fst heq) habs
                · intro mealType items t attendanceCount h1 h2 h3 h4 h5 h6
                  simp only [Option.some.injEq] at h1 h2
                  subst h1; subst h2
                  simp only [DateField.valid.injEq] at h3
                  subst h3
                  rw [hatt0] at h4
                  simp only [Option.some.injEq] at h4
                  subst h4
                  constructor
                  · intro _
                    exact heq
                  · intro h0
                    exact absurd h0 herr
        · have heq : recordInventoryUsage store
              { date := rdate, mealType := some mealType0
                items := some items0, notes := rnotes, user := ruser } now =
              (store, ManualResult.errInvalidMealType) := by
            simp [recordInventoryUsage, hmiss.1, hmiss.2, hmt]
          refine ⟨?_, ?_, ?_⟩
          · intro errs habs
            rw [heq] at habs
            exact absurd habs (by simp)
          · intro habs
            exact absurd (congrArg Prod.fst heq) habs
          · intro mealType items t attendanceCount h1 h2 h3 h4 h5 h6
            simp only [Option.some.injEq] at h1
            subst h1
            exact absurd h5 hmt

/-- Concrete data for the C5 witness: one requested item needs 10 kg of
"Dhal" but only 3 kg are in stock. -/
def dhalStore : Store :=
  { items := [{ id := 1, name := "Dhal", unit := "kg", currentStock := 3
                minimumStock := 1, lastUpdated := 0 }]
    mealPlans := []
    sessions := [{ id := 2, sessionType := "evening"
                   attendanceRecords := [], totalStudents := 25
                   presentCount := 20, absentCount := 5, markedBy := 3
                   markedAt := 0, notes := "", isCompleted := false }]
    users := [], students := [], attendanceRecords := [], usages := []
    notifications := [], nextId := 50 }

def dhalItems : List ManualItemInput :=
  [{ inventoryItemId := some 1, recordedQuantity := some 5
     recordedForStudents := some 10 }]

def dhalRequest : ManualRequest :=
  { date := DateField.valid 86400000, mealType := some "breakfast"
    items := some dhalItems, notes := none, user := 9 }

/-- Witness for C5: the request is rejected with the collected error list
(here the single insufficient-stock error for "Dhal") and the store is
returned unchanged. -/
theorem manual_no_partial_application_witness :
    recordInventoryUsage dhalStore dhalRequest 0 =
      (dhalStore,
       ManualResult.errItems (manualLoop dhalStore 20 dhalItems).errors) ∧
    (manualLoop dhalStore 20 dhalItems).errors =
      [ManualError.insufficientStock "Dhal" 3 10 "kg"] := by
  have herrs : (manualLoop dhalStore 20 dhalItems).errors =
      [ManualError.insufficientStock "Dhal" 3 10 "kg"] := by
    norm_num [manualLoop, dhalItems, dhalStore, processManualItem, findItem,
      quantityToConsume, List.find?]
  have hatt : getAttendanceCount dhalStore "evening"
      (attendanceDateFor "breakfast" (startOfDayMs 86400000)) = some 20 := by
    norm_num [getAttendanceCount, findSession, dhalStore, withinDayOf,
      attendanceDateFor, startOfDayMs, endOfDayMs, dayOf, msPerDay,
      List.find?]
  refine ⟨?_, herrs⟩
  exact ((manual_no_partial_application dhalStore dhalRequest 0).2.2
      "breakfast" dhalItems 86400000 20 rfl rfl rfl hatt (Or.inl rfl)
      (by simp [dhalItems])).1 (by rw [herrs]; simp)

/-! ## C4 — partial failure of a two-item scheduled run -/

/-- C4: in a scheduled run whose plan has exactly two items, where the
first debit succeeds and the second fails the stock check, exactly one
usage record is appended for (date, mealType) and it contains only the
succeeded item's line, and exactly one alert notification is appended per
admin user, whose message carries the failed item's name, available stock
and required amount. -/
theorem cron_partial_failure (store : Store) (mealType : String)
    (date now : Int) (plan : MealPlan) (p1 p2 : PlanItem) (n : Nat)
    (sysUser : User) (i1 i2 : InventoryItem)
    (hplan : store.mealPlans.find? (·.day == dayNameOf date) = some plan)
    (hinv : mealInventoryOf plan mealType = [p1, p2])
    (hatt : getAttendanceCount store "evening"
      (attendanceDateFor mealType date) = some n)
    (hn : n ≠ 0)
    (hadmin : store.users.find? (·.role == "admin") = some sysUser)
    (hi1 : findItem store p1.inventoryItemId = some i1)
    (hq1 : ¬ i1.currentStock <
      quantityToConsume p1.quantity (effectiveForStudents p1.forStudents)
        (n : Rat))
    (hi2 : findItem
        (updateItemStock store p1.inventoryItemId
          (i1.currentStock -
            quantityToConsume p1.quantity (effectiveForStudents p1.forStudents)
              (n : Rat)) now)
        p2.inventoryItemId = some i2)
    (hq2 : i2.currentStock <
      quantityToConsume p2.quantity (effectiveForStudents p2.forStudents)
        (n : Rat)) :
    (consumeInventoryForMeal store mealType date now).usages =
      store.usages ++
        [{ date := date
           mealType := mealType
           items :=
             [{ inventoryItemId := i1.id
                recordedQuantity := p1.quantity
                recordedForStudents := effectiveForStudents p1.forStudents
                actualQuantityDeducted :=
                  quantityToConsume p1.quantity
                    (effectiveForStudents p1.forStudents) (n : Rat) }]
           attendanceCount := n
           attendanceSessionId :=
             (findSession store "evening"
               (attendanceDateFor mealType date)).map (·.id)
           recordedBy := sysUser.id
           notes := "Automated deduction via cron job" }] ∧
    (consumeInventoryForMeal store mealType date now).notifications =
      store.notifications ++
        (store.users.filter (·.role == "admin")).map
          (fun admin =>
            cronErrorNotification admin mealType (dayNameOf date)
              [ConsumeError.insufficientStock mealType i2.name
                i2.currentStock
                (quantityToConsume p2.quantity
                  (effectiveForStudents p2.forStudents) (n : Rat))
                i2.unit n]
              now) := by
  simp only [consumeInventoryForMeal, hplan, hatt, if_neg hn, hinv, hadmin,
    List.isEmpty_cons, Bool.false_eq_true, if_false, List.foldl_cons,
    List.foldl_nil]
  simp only [processCronItem, hi1, if_neg hq1]
  simp only [processCronItem, hi2, if_pos hq2]
  simp [updateItemStock]

/-- Concrete data for the C4 witness: a Thursday dinner plan with "Rice"
(succeeds: 100 in stock, 5 required) and "Oil" (fails: 1 in stock, 2
required), attendance 10, one admin. -/
def c4Rice : InventoryItem :=
  { id := 1, name := "Rice", unit := "kg", currentStock := 100
    minimumStock := 5, lastUpdated := 0 }

def c4Oil : InventoryItem :=
  { id := 2, name := "Oil", unit := "l", currentStock := 1
    minimumStock := 1, lastUpdated := 0 }

def c4P1 : PlanItem := { inventoryItemId := 1, quantity := 5, forStudents := none }

def c4P2 : PlanItem := { inventoryItemId := 2, quantity := 2, forStudents := none }

def c4Plan : MealPlan :=
  { day := "Thursday", breakfastInventory := [], lunchInventory := []
    dinnerInventory := [c4P1, c4P2] }

def c4Admin : User :=
  { id := 4, role := "admin", firstName := "A", lastName := "B" }

def c4Session : AttendanceSession :=
  { id := 3, sessionType := "evening", attendanceRecords := []
    totalStudents := 12, presentCount := 10, absentCount := 2, markedBy := 4
    markedAt := 0, notes := "", isCompleted := false }

def c4Store : Store :=
  { items := [c4Rice, c4Oil], mealPlans := [c4Plan], sessions := [c4Session]
    users := [c4Admin], students := [], attendanceRecords := [], usages := []
    notifications := [], nextId := 9 }

/-- Witness for C4 at the concrete two-item store. -/
theorem cron_partial_failure_witness :
    (consumeInventoryForMeal c4Store "dinner" 0 7).usages =
      c4Store.usages ++
        [{ date := 0
           mealType := "dinner"
           items :=
             [{ inventoryItemId := c4Rice.id
                recordedQuantity := c4P1.quantity
                recordedForStudents := effectiveForStudents c4P1.forStudents
                actualQuantityDeducted :=
                  quantityToConsume c4P1.quantity
                    (effectiveForStudents c4P1.forStudents) ((10 : Nat) : Rat) }]
           attendanceCount := 10
           attendanceSessionId :=
             (findSession c4Store "evening"
               (attendanceDateFor "dinner" 0)).map (·.id)
           recordedBy := c4Admin.id
           notes := "Automated deduction via cron job" }] ∧
    (consumeInventoryForMeal c4Store "dinner" 0 7).notifications =
      c4Store.notifications ++
        (c4Store.users.filter (·.role == "admin")).map
          (fun admin =>
            cronErrorNotification admin "dinner" (dayNameOf 0)
              [ConsumeError.insufficientStock "dinner" c4Oil.name
                c4Oil.currentStock
                (quantityToConsume c4P2.quantity
                  (effectiveForStudents c4P2.forStudents) ((10 : Nat) : Rat))
                c4Oil.unit 10]
              7) := by
  have hq1 : ¬ c4Rice.currentStock <
      quantityToConsume c4P1.quantity (effectiveForStudents c4P1.forStudents)
        ((10 : Nat) : Rat) := by
    norm_num [c4Rice, c4P1, quantityToConsume, effectiveForStudents]
  have hq2 : c4Oil.currentStock <
      quantityToConsume c4P2.quantity (effectiveForStudents c4P2.forStudents)
        ((10 : Nat) : Rat) := by
    norm_num [c4Oil, c4P2, quantityToConsume, effectiveForStudents]
  have hi2 : findItem
      (updateItemStock c4Store c4P1.inventoryItemId
        (c4Rice.currentStock -
          quantityToConsume c4P1.quantity
            (effectiveForStudents c4P1.forStudents) ((10 : Nat) : Rat)) 7)
      c4P2.inventoryItemId = some c4Oil := by
    simp [findItem, updateItemStock, c4Store, c4Rice, c4Oil, c4P1, c4P2]
  exact cron_partial_failure c4Store "dinner" 0 7 c4Plan c4P1 c4P2 10
    c4Admin c4Rice c4Oil rfl rfl rfl (by decide) rfl rfl hq1 hi2 hq2

/-! ## C6 — low-stock monitor: daily dedup and severity -/

lemma lowStockStep_frame (now : Int) (item : InventoryItem) (s : Store)
    (u : User) :
    (lowStockStep now item s u).items = s.items ∧
    (lowStockStep now item s u).users = s.users := by
  unfold lowStockStep
  split <;> exact ⟨rfl, rfl⟩

lemma lowStockStep_notifications (now : Int) (item : InventoryItem)
    (s : Store) (u : User) :
    (lowStockStep now item s u).notifications = s.notifications ∨
    (lowStockStep now item s u).notifications =
      s.notifications ++ [lowStockNotification u item now] := by
  unfold lowStockStep
  split
  · exact Or.inl rfl
  · exact Or.inr rfl

lemma innerFold_frame (now : Int) (item : InventoryItem) :
    ∀ (admins : List User) (s : Store),
      (admins.foldl (lowStockStep now item) s).items = s.items ∧
      (admins.foldl (lowStockStep now item) s).users = s.users := by
  intro admins
  induction admins with
  | nil => intro s; exact ⟨rfl, rfl⟩
  | cons u us ih =>
    intro s
    rw [List.foldl_cons]
    have h1 := ih (lowStockStep now item s u)
    have h2 := lowStockStep_frame now item s u
    exact ⟨h1.1.trans h2.1, h1.2.trans h2.2⟩

lemma innerFold_notif_mono (now : Int) (item : InventoryItem) :
    ∀ (admins : List User) (s : Store),
      ∃ l, (admins.foldl (lowStockStep now item) s).notifications =
        s.notifications ++ l := by
  intro admins
  induction admins with
  | nil => intro s; exact ⟨[], by simp⟩
  | cons u us ih =>
    intro s
    rw [List.foldl_cons]
    obtain ⟨l, hl⟩ := ih (lowStockStep now item s u)
    rcases lowStockStep_notifications now item s u with h | h
    · exact ⟨l, by rw [hl, h]⟩
    · exact ⟨lowStockNotification u item now :: l, by rw [hl, h]; simp⟩

lemma outerFold_frame (now : Int) (admins : List User) :
    ∀ (lows : List InventoryItem) (s : Store),
      ((lows.foldl
          (fun s item => admins.foldl (lowStockStep now item) s) s).items =
        s.items) ∧
      ((lows.foldl
          (fun s item => admins.foldl (lowStockStep now item) s) s).users =
        s.users) := by
  intro lows
  induction lows with
  | nil => intro s; exact ⟨rfl, rfl⟩
  | cons i is ih =>
    intro s
    rw [List.foldl_cons]
    have h1 := ih (admins.foldl (lowStockStep now i) s)
    have h2 := innerFold_frame now i admins s
    exact ⟨h1.1.trans h2.1, h1.2.trans h2.2⟩

lemma outerFold_notif_mono (now : Int) (admins : List User) :
    ∀ (lows : List InventoryItem) (s : Store),
      ∃ l, (lows.foldl
          (fun s item => admins.foldl (lowStockStep now item) s)
          s).notifications =
        s.notifications ++ l := by
  intro lows
  induction lows with
  | nil => intro s; exact ⟨[], by simp⟩
  | cons i is ih =>
    intro s
    rw [List.foldl_cons]
    obtain ⟨l1, hl1⟩ := ih (admins.foldl (lowStockStep now i) s)
    obtain ⟨l2, hl2⟩ := innerFold_notif_mono now i admins s
    exact ⟨l2 ++ l1, by rw [hl1, hl2]; simp⟩

lemma innerFold_covers (now : Int) (item : InventoryItem) :
    ∀ (admins : List User) (s : Store), ∀ u ∈ admins,
      ∃ n ∈ (admins.foldl (lowStockStep now item) s).notifications,
        lowStockMatch u.id ("Low Stock: " ++ item.name) now n = true := by
  intro admins
  induction admins with
  | nil => intro s u hu; exact absurd hu (List.not_mem_nil u)
  | cons u0 us ih =>
    intro s u hu
    rw [List.foldl_cons]
    rcases List.mem_cons.mp hu with hu | hu
    · subst hu
      have hstep : ∃ n ∈ (lowStockStep now item s u).notifications,
          lowStockMatch u.id ("Low Stock: " ++ item.name) now n = true := by
        unfold lowStockStep lowStockDedupQuery
        cases hq : List.find?
            (lowStockMatch u.id ("Low Stock: " ++ item.name) now)
            s.notifications with
        | some n0 =>
          exact ⟨n0, List.mem_of_find?_eq_some hq, List.find?_some hq⟩
        | none =>
          refine ⟨lowStockNotification u item now, ?_, ?_⟩
          · exact List.mem_append_right _ (List.mem_singleton_self _)
          · simp [lowStockMatch, lowStockNotification, startOfDayMs_le_self]
      obtain ⟨n, hn, hpred⟩ := hstep
      obtain ⟨l, hl⟩ := innerFold_notif_mono now item us (lowStockStep now item s u)
      exact ⟨n, by rw [hl]; exact List.mem_append_left _ hn, hpred⟩
    · exact ih (lowStockStep now item s u0) u hu

lemma outerFold_covers (now : Int) (admins : List User) :
    ∀ (lows : List InventoryItem) (s : Store), ∀ item ∈ lows, ∀ u ∈ admins,
      ∃ n ∈ (lows.foldl
          (fun s item => admins.foldl (lowStockStep now item) s)
          s).notifications,
        lowStockMatch u.id ("Low Stock: " ++ item.name) now n = true := by
  intro lows
  induction lows with
  | nil => intro s item hitem; exact absurd hitem (List.not_mem_nil item)
  | cons i is ih =>
    intro s item hitem u hu
    rw [List.foldl_cons]
    rcases List.mem_cons.mp hitem with h | h
    · subst h
      obtain ⟨n, hn, hpred⟩ := innerFold_covers now item admins s u hu
      obtain ⟨l, hl⟩ :=
        outerFold_notif_mono now admins is (admins.foldl (lowStockStep now item) s)
      exact ⟨n, by rw [hl]; exact List.mem_append_left _ hn, hpred⟩
    · exact ih (admins.foldl (lowStockStep now i) s) item h u hu

lemma innerFold_id_of_covered (now : Int) (item : InventoryItem) :
    ∀ (admins : List User) (s : Store),
      (∀ u ∈ admins, ∃ n ∈ s.notifications,
        lowStockMatch u.id ("Low Stock: " ++ item.name) now n = true) →
      admins.foldl (lowStockStep now item) s = s := by
  intro admins
  induction admins with
  | nil => intro s _; rfl
  | cons u us ih =>
    intro s hcov
    rw [List.foldl_cons]
    have hstep : lowStockStep now item s u = s := by
      obtain ⟨n, hn, hpred⟩ := hcov u (List.mem_cons_self u us)
      have hsome : (List.find?
          (lowStockMatch u.id ("Low Stock: " ++ item.name) now)
          s.notifications).isSome := by
        rw [List.find?_isSome]
        exact ⟨n, hn, hpred⟩
      unfold lowStockStep lowStockDedupQuery
      cases hq : List.find?
          (lowStockMatch u.id ("Low Stock: " ++ item.name) now)
          s.notifications with
      | some n0 => rfl
      | none => rw [hq] at hsome; simp at hsome
    rw [hstep]
    exact ih s (fun v hv => hcov v (List.mem_cons_of_mem _ hv))

lemma outerFold_id_of_covered (now : Int) (admins : List User) :
    ∀ (lows : List InventoryItem) (s : Store),
      (∀ item ∈ lows, ∀ u ∈ admins, ∃ n ∈ s.notifications,
        lowStockMatch u.id ("Low Stock: " ++ item.name) now n = true) →
      lows.foldl (fun s item => admins.foldl (lowStockStep now item) s) s =
        s := by
  intro lows
  induction lows with
  | nil => intro s _; rfl
  | cons i is ih =>
    intro s hcov
    rw [List.foldl_cons]
    have hstep : admins.foldl (lowStockStep now i) s = s :=
      innerFold_id_of_covered now i admins s
        (hcov i (List.mem_cons_self i is))
    rw [hstep]
    exact ih s (fun item hitem => hcov item (List.mem_cons_of_mem _ hitem))

lemma innerFold_new (now : Int) (item : InventoryItem) :
    ∀ (admins : List User) (s : Store) (n : Notification),
      n ∈ (admins.foldl (lowStockStep now item) s).notifications →
      n ∈ s.notifications ∨
        ∃ u ∈ admins, n = lowStockNotification u item now := by
  intro admins
  induction admins with
  | nil => intro s n hn; exact Or.inl hn
  | cons u us ih =>
    intro s n hn
    rw [List.foldl_cons] at hn
    rcases ih (lowStockStep now item s u) n hn with h | h
    · rcases lowStockStep_notifications now item s u with he | he
      · rw [he] at h; exact Or.inl h
      · rw [he] at h
        rcases List.mem_append.mp h with h | h
        · exact Or.inl h
        · rw [List.mem_singleton] at h
          exact Or.inr ⟨u, List.mem_cons_self u us, h⟩
    · obtain ⟨u1, hu1, he⟩ := h
      exact Or.inr ⟨u1, List.mem_cons_of_mem _ hu1, he⟩

lemma outerFold_new (now : Int) (admins : List User) :
    ∀ (lows : List InventoryItem) (s : Store) (n : Notification),
      n ∈ (lows.foldl
          (fun s item => admins.foldl (lowStockStep now item) s)
          s).notifications →
      n ∈ s.notifications ∨
        ∃ item ∈ lows, ∃ u ∈ admins,
          n = lowStockNotification u item now := by
  intro lows
  induction lows with
  | nil => intro s n hn; exact Or.inl hn
  | cons i is ih =>
    intro s n hn
    rw [List.foldl_cons] at hn
    rcases ih (admins.foldl (lowStockStep now i) s) n hn with h | h
    · rcases innerFold_new now i admins s n h with h2 | h2
      · exact Or.inl h2
      · obtain ⟨u, hu, he⟩ := h2
        exact Or.inr ⟨i, List.mem_cons_self i is, u, hu, he⟩
    · obtain ⟨item, hitem, u, hu, he⟩ := h
      exact Or.inr ⟨item, List.mem_cons_of_mem _ hitem, u, hu, he⟩

lemma checkLowStockItems_noop (s : Store) (now2 : Int)
    (hcov : ∀ item ∈ s.items.filter
        (fun it => decide (it.currentStock ≤ it.minimumStock)),
      ∀ u ∈ s.users.filter
        (fun u => u.role == "admin" || u.role == "kitchen"),
      ∃ n ∈ s.notifications,
        lowStockMatch u.id ("Low Stock: " ++ item.name) now2 n = true) :
    checkLowStockItems s now2 = s := by
  by_cases hlow : (s.items.filter
      (fun it => decide (it.currentStock ≤ it.minimumStock))).isEmpty = true
  · simp only [checkLowStockItems, if_pos hlow]
  · simp only [checkLowStockItems, if_neg hlow]
    exact outerFold_id_of_covered now2 _ _ s hcov

/-- C6: (1) running the low-stock monitor a second time in the same
calendar day, with no state change in between, is a no-op — it creates no
additional notifications (so there is at most one notification per item
and recipient per day); (2) every notification the monitor adds belongs to
a low item (`currentStock ≤ minimumStock`) and has type `"alert"` exactly
when that item's stock is `0`, `"warning"` otherwise. -/
theorem low_stock_monitor_daily_dedup (store : Store) (now now2 : Int)
    (hday : dayOf now2 = dayOf now) :
    checkLowStockItems (checkLowStockItems store now) now2 =
      checkLowStockItems store now ∧
    ∀ n ∈ (checkLowStockItems store now).notifications,
      n ∈ store.notifications ∨
      ∃ item ∈ store.items, item.currentStock ≤ item.minimumStock ∧
        n.title = "Low Stock: " ++ item.name ∧
        n.ntype = (if item.currentStock = 0 then "alert" else "warning") := by
  have hsod : startOfDayMs now2 = startOfDayMs now :=
    startOfDayMs_eq_of_dayOf_eq hday
  constructor
  · apply checkLowStockItems_noop
    intro item hitem u hu
    by_cases hlow : (store.items.filter
        (fun it => decide (it.currentStock ≤ it.minimumStock))).isEmpty
        = true
    · have h1 : checkLowStockItems store now = store := by
        simp only [checkLowStockItems, if_pos hlow]
      rw [h1] at hitem
      rw [List.isEmpty_iff] at hlow
      rw [hlow] at hitem
      exact absurd hitem (List.not_mem_nil item)
    · have hs1 : checkLowStockItems store now =
          (store.items.filter
            (fun it => decide (it.currentStock ≤ it.minimumStock))).foldl
            (fun s item =>
              (store.users.filter
                (fun u => u.role == "admin" || u.role == "kitchen")).foldl
                (lowStockStep now item) s)
            store := by
        simp only [checkLowStockItems, if_neg hlow]
      have hitems : (checkLowStockItems store now).items = store.items := by
        rw [hs1]
        exact (outerFold_frame now _ _ store).1
      have husers : (checkLowStockItems store now).users = store.users := by
        rw [hs1]
        exact (outerFold_frame now _ _ store).2
      rw [hitems] at hitem
      rw [husers] at hu
      obtain ⟨n, hn, hpred⟩ := outerFold_covers now _ _ store item hitem u hu
      refine ⟨n, ?_, ?_⟩
      · rw [hs1]; exact hn
      · unfold lowStockMatch at hpred ⊢
        rw [hsod]
        exact hpred
  · intro n hn
    by_cases hlow : (store.items.filter
        (fun it => decide (it.currentStock ≤ it.minimumStock))).isEmpty
        = true
    · simp only [checkLowStockItems, if_pos hlow] at hn
      exact Or.inl hn
    · simp only [checkLowStockItems, if_neg hlow] at hn
      rcases outerFold_new now _ _ store n hn with h | h
      · exact Or.inl h
      · obtain ⟨item, hitem, u, hu, he⟩ := h
        have hitem2 := List.mem_filter.mp hitem
        subst he
        exact Or.inr ⟨item, hitem2.1, by simpa using hitem2.2, rfl, rfl⟩

/-- Concrete data for the C6 witness: one out-of-stock item and one
kitchen recipient. -/
def saltStore : Store :=
  { items := [{ id := 1, name := "Salt", unit := "kg", currentStock := 0
                minimumStock := 2, lastUpdated := 0 }]
    mealPlans := [], sessions := []
    users := [{ id := 2, role := "kitchen", firstName := "K"
                lastName := "L" }]
    students := [], attendanceRecords := [], usages := []
    notifications := [], nextId := 3 }

/-- Witness for C6: two runs at 00:00:00.005 and 00:00:00.010 of the same
day — the second run changes nothing. -/
theorem low_stock_monitor_daily_dedup_witness :
    dayOf 10 = dayOf 5 ∧
    checkLowStockItems (checkLowStockItems saltStore 5) 10 =
      checkLowStockItems saltStore 5 :=
  ⟨by decide, (low_stock_monitor_daily_dedup saltStore 5 10 (by decide)).1⟩
